import Mathlib

/-!
Shallow embedding of the wallet service's repository layer
(`app/internal/repository/postgres.go`) together with the pieces of the
REST layer (`app/rest/operator.go`, `app/rest/error.go`) and the database
schema (`migrations/*_init.up.sql`) that the verified claims depend on.

The database is modelled as an explicit state (`DBState`) holding the
`accounts` and `transactions` tables; SQL statements become functions on
that state.  `decimal.Decimal` amounts become `Int`:
exact decimal arithmetic embeds in the integers once amounts are read in
the smallest currency unit, and the code uses only addition, negation
and order comparison, which that embedding preserves.  Go errors become an
explicit error enumeration (`ApiErr`); fallible steps return `Except`.
The one genuine source of nondeterminism — the relative order of rows
with equal `created_at` under `ORDER BY created_at DESC` — is made
explicit as a Boolean tie-break parameter.
-/

deriving instance DecidableEq for Except

namespace Wallet

/-- Go `strings.ToUpper` restricted to the characters in play: uppercase
every character. -/
def strUpper (s : String) : String := ⟨s.data.map Char.toUpper⟩

/-- Lowercase every character (for `strings.EqualFold`). -/
def strLower (s : String) : String := ⟨s.data.map Char.toLower⟩

/-- Go `strings.TrimSpace`: drop leading and trailing whitespace. -/
def strTrim (s : String) : String :=
  ⟨((s.data.dropWhile Char.isWhitespace).reverse.dropWhile Char.isWhitespace).reverse⟩

/-- Error kinds of the `api` package (`api/errors.go`). -/
inductive ApiErr where
  | invalidRequest
  | accountNotFound
  | invalidAmount
  | invalidCurrency
  | invalidAccountID
  | negativeAmount
  | sameAccountIDs
  | invalidTxID
  | insufficientBalance
  | transactionNotFound
  | duplicateTransaction
  | companyAccount
  | missingIdempotencyKey
  | incompleteTransaction
  | transferFailed
  | unhandledDatabase
deriving DecidableEq, Repr

/-- `api.DebitOrCreditType`. -/
inductive DebitCredit where
  | DEBIT
  | CREDIT
deriving DecidableEq, Repr

/-- `api.CompanyAccountID`. -/
def companyAccountID : String := "company"

/-- Go `strings.EqualFold`, restricted to simple case folding. -/
def eqFold (a b : String) : Bool := strLower a == strLower b

/-- A row of the `accounts` table: surrogate `id`, natural key
`(user_id, currency)`, and the exact-decimal `balance`. -/
structure AccountRow where
  id : Nat
  userId : String
  currency : String
  balance : Int
deriving DecidableEq, Repr

/-- A row of the `transactions` table: surrogate `id`, owning account by
surrogate id, `amount`, `debit_credit`, `group_id` (idempotency key),
`description` and `created_at` (the transaction timestamp). -/
structure TxRow where
  id : Nat
  accountId : Nat
  amount : Int
  ty : DebitCredit
  groupId : String
  description : String
  createdAt : Nat
deriving DecidableEq, Repr

/-- The database state: both tables, the surrogate-id allocators, and a
logical clock supplying `CURRENT_TIMESTAMP` (constant within one database
transaction). -/
structure DBState where
  accounts : List AccountRow
  transactions : List TxRow
  nextAccountId : Nat
  nextTxId : Nat
  clock : Nat
deriving DecidableEq, Repr

/-- The empty database, as produced by the migration. -/
def emptyDB : DBState := ⟨[], [], 0, 0, 0⟩

/-- `api.TransferRequest`. -/
structure TransferRequest where
  fromAccountID : String
  toAccountID : String
  amount : Int
  currency : String
  remarks : String
deriving DecidableEq, Repr

/-- `api.Account` as returned by `GetAccountBalance`. -/
structure Account where
  accountID : String
  currency : String
  balance : Int
deriving DecidableEq, Repr

/-- `api.Transaction`: the projection returned by the transaction
queries (join of `transactions` with its owning `accounts` row). -/
structure TransactionView where
  txId : Nat
  accountId : String
  ty : DebitCredit
  amount : Int
  currency : String
  runningBalance : Int
  remarks : String
  time : Nat
deriving DecidableEq, Repr

/-- Lookup by the natural key, as in the SQL
`WHERE user_id = $1 AND currency = $2` (first matching row). -/
def findAccount (s : DBState) (userId currency : String) : Option AccountRow :=
  s.accounts.find? fun a => a.userId == userId && a.currency == currency

/-- The `selectLockAccount` query: `SELECT id, balance FROM accounts
WHERE user_id = $1 AND currency = $2 FOR NO KEY UPDATE`. -/
def selectLockAccount (s : DBState) (p1 p2 : String) : Option (Nat × Int) :=
  (findAccount s p1 p2).map fun a => (a.id, a.balance)

/-- The `selectGroupExists` query:
`SELECT count(1) FROM transactions WHERE group_id = $1`. -/
def countGroup (s : DBState) (groupId : String) : Nat :=
  (s.transactions.filter fun t => t.groupId == groupId).length

/-- `validateCurrencyAndAccount`: currency must be non-empty and at most
10 characters, account id non-empty and at most 255 characters. -/
def validateCurrencyAndAccount (currency accountID : String) : Option ApiErr :=
  if currency == "" || currency.length > 10 then
    some .invalidCurrency
  else if accountID == "" || accountID.length > 255 then
    some .invalidAccountID
  else
    none

/-- The in-place normalization at the top of `Transfer`: trim and
uppercase the currency, trim both account ids. -/
def normalizeRequest (req : TransferRequest) : TransferRequest :=
  { req with
      currency := strUpper (strTrim req.currency)
      fromAccountID := strTrim req.fromAccountID
      toAccountID := strTrim req.toAccountID }

/-- The `upsertAccount` statement: `INSERT ... ON CONFLICT (user_id,
currency) DO UPDATE SET user_id=EXCLUDED.user_id, ...` — creates the row
with the default balance 0 when absent, leaves an existing row's balance
untouched. -/
def upsertAccount (s : DBState) (userId currency : String) : DBState :=
  match findAccount s userId currency with
  | some _ => s
  | none =>
      { s with
          accounts := s.accounts ++ [⟨s.nextAccountId, userId, currency, 0⟩]
          nextAccountId := s.nextAccountId + 1 }

/-- `upsertAccounts`: upsert the source account, then the destination
account (both on the pooled connection, outside the transaction). -/
def upsertAccounts (s : DBState) (req : TransferRequest) : DBState :=
  upsertAccount (upsertAccount s req.fromAccountID req.currency)
    req.toAccountID req.currency

/-- Result of `lockAccounts`: the `accountPairBalance` of the source and
destination rows, plus the surrogate ids in the order they were locked. -/
structure LockResult where
  fromId : Nat
  fromBalance : Int
  toId : Nat
  toBalance : Int
  lockOrder : List Nat
deriving DecidableEq, Repr

/-- `lockAccounts`: lock the source row and read `(id, balance)`; fail
with `InsufficientBalance` when the source balance cannot cover the
amount and the source is not the company account; then lock the
destination row.  A row the lock query does not match surfaces as a
database error. -/
def lockAccounts (s : DBState) (req : TransferRequest) : Except ApiErr LockResult :=
  match selectLockAccount s req.fromAccountID req.currency with
  | none => .error .unhandledDatabase
  | some (fid, fbal) =>
      let allowNegative := eqFold req.fromAccountID companyAccountID
      if fbal < req.amount && !allowNegative then
        .error .insufficientBalance
      else
        match selectLockAccount s req.toAccountID req.currency with
        | none => .error .unhandledDatabase
        | some (tid, tbal) => .ok ⟨fid, fbal, tid, tbal, [fid, tid]⟩

/-- One execution of `insertStatement`.  The schema bounds `group_id` to
`VARCHAR(50)` and `description` to `VARCHAR(255)`, and enforces
`UNIQUE (group_id, debit_credit, account_id)`; a violation surfaces as a
driver error, which `formatUnknownError` wraps as `UnhandledDatabaseError`. -/
def insertTransaction (s : DBState) (accountId : Nat) (amount : Int)
    (ty : DebitCredit) (description groupId : String) :
    Except ApiErr (DBState × Nat) :=
  if groupId.length > 50 || description.length > 255 then
    .error .unhandledDatabase
  else if s.transactions.any fun t =>
      t.groupId == groupId && t.ty == ty && t.accountId == accountId then
    .error .unhandledDatabase
  else
    .ok ({ s with
            transactions :=
              s.transactions ++
                [⟨s.nextTxId, accountId, amount, ty, groupId, description, s.clock⟩]
            nextTxId := s.nextTxId + 1 },
         s.nextTxId)

/-- `createDoubleEntry`: insert the DEBIT entry for the source account,
then the CREDIT entry for the destination account, both carrying the
request amount, the remarks, and `group_id = idempotencyKey`. -/
def createDoubleEntry (s : DBState) (req : TransferRequest)
    (fromAccountDatabaseID toAccountDatabaseID : Nat) (idempotencyKey : String) :
    Except ApiErr (DBState × Nat × Nat) :=
  match insertTransaction s fromAccountDatabaseID req.amount .DEBIT
      req.remarks idempotencyKey with
  | .error e => .error e
  | .ok (s1, debitId) =>
      match insertTransaction s1 toAccountDatabaseID req.amount .CREDIT
          req.remarks idempotencyKey with
      | .error e => .error e
      | .ok (s2, creditId) => .ok (s2, debitId, creditId)

/-- The `updateAccountBalance` statement:
`UPDATE accounts SET balance = balance + $1 WHERE user_id = $2 AND
currency = $3` applied to every matching row. -/
def addToBalance (s : DBState) (delta : Int) (userId currency : String) : DBState :=
  { s with
      accounts := s.accounts.map fun a =>
        if a.userId == userId && a.currency == currency then
          { a with balance := a.balance + delta }
        else a }

/-- `updateBalances`: subtract the amount from the source balance
(`RETURNING balance`), re-check non-negativity for non-company sources,
then add the amount to the destination balance. -/
def updateBalances (s : DBState) (req : TransferRequest) : Except ApiErr DBState :=
  let s1 := addToBalance s req.amount.neg req.fromAccountID req.currency
  match findAccount s1 req.fromAccountID req.currency with
  | none => .error .unhandledDatabase
  | some row =>
      let allowNegative := eqFold req.fromAccountID companyAccountID
      if row.balance < 0 && !allowNegative then
        .error .insufficientBalance
      else
        .ok (addToBalance s1 req.amount req.toAccountID req.currency)

/-- Join one `transactions` row with its owning `accounts` row, as in the
`SELECT ... FROM transactions JOIN accounts ON transactions.account_id =
accounts.id` projection. -/
def rowToView (s : DBState) (t : TxRow) : Option TransactionView :=
  (s.accounts.find? fun a => a.id == t.accountId).map fun a =>
    ⟨t.id, a.userId, t.ty, t.amount, a.currency, a.balance, t.description, t.createdAt⟩

/-- Join a list of rows; a dangling `account_id` fails the scan. -/
def joinViews (s : DBState) : List TxRow → Option (List TransactionView)
  | [] => some []
  | t :: rest =>
      match rowToView s t, joinViews s rest with
      | some v, some vs => some (v :: vs)
      | _, _ => none

/-- Stable insertion into a list sorted by `createdAt` descending: the
inserted row goes in front of the first row whose timestamp is ≤ its own. -/
def insertDesc (t : TxRow) : List TxRow → List TxRow
  | [] => [t]
  | h :: rest =>
      if h.createdAt ≤ t.createdAt then t :: h :: rest
      else h :: insertDesc t rest

/-- Sort rows by `createdAt` descending.  `ORDER BY created_at DESC`
fixes only the timestamp order; the relative order of rows with equal
timestamps is unspecified, so it is supplied by the `tie` parameter:
`tie = true` keeps physical insertion order among equal timestamps,
`tie = false` reverses it. -/
def sortDescCreated (tie : Bool) (rows : List TxRow) : List TxRow :=
  go (if tie then rows else rows.reverse)
where
  go : List TxRow → List TxRow
    | [] => []
    | t :: rest => insertDesc t (go rest)

/-- `getTransactionsByIDs` with the `selectTransactionPair` query:
filter by the two ids, order by `created_at DESC`, join with accounts. -/
def getTransactionsByIDs (tie : Bool) (s : DBState) (txID1 txID2 : Nat) :
    Except ApiErr (List TransactionView) :=
  let rows := s.transactions.filter fun t => t.id == txID1 || t.id == txID2
  match joinViews s (sortDescCreated tie rows) with
  | some vs => .ok vs
  | none => .error .unhandledDatabase

/-- The body of `Transfer` after the in-place request normalization:
validation, idempotency pre-check, account upsert (auto-committed),
then the database transaction (lock, double entry, balance updates),
commit, and post-commit readback.  Returns the result together with the
committed database state; a rollback discards everything after `BeginTx`
but keeps the upserted accounts. -/
def transferCore (tie : Bool) (s : DBState) (req : TransferRequest)
    (idempotencyKey : String) :
    Except ApiErr (List TransactionView) × DBState :=
  match validateCurrencyAndAccount req.currency req.fromAccountID with
  | some e => (.error e, s)
  | none =>
  match validateCurrencyAndAccount req.currency req.toAccountID with
  | some e => (.error e, s)
  | none =>
  if eqFold req.fromAccountID req.toAccountID then
    (.error .sameAccountIDs, s)
  else if req.amount == 0 then
    (.error .invalidAmount, s)
  else if req.amount < 0 then
    (.error .negativeAmount, s)
  else if 0 < countGroup s idempotencyKey then
    (.error .duplicateTransaction, s)
  else
    let s1 := upsertAccounts s req
    match lockAccounts s1 req with
    | .error e => (.error e, s1)
    | .ok pair =>
        match createDoubleEntry s1 req pair.fromId pair.toId idempotencyKey with
        | .error e => (.error e, s1)
        | .ok (s2, debitId, creditId) =>
            match updateBalances s2 req with
            | .error e => (.error e, s1)
            | .ok s3 =>
                let s4 := { s3 with clock := s3.clock + 1 }
                (getTransactionsByIDs tie s4 debitId creditId, s4)

/-- Outcome of one `Transfer` call: the returned value or error, the
committed database state, and the caller's request struct as the call
leaves it (the source mutates it in place). -/
structure TransferOutcome where
  result : Except ApiErr (List TransactionView)
  state : DBState
  request : TransferRequest
deriving DecidableEq, Repr

/-- `PostgresRepository.Transfer`. -/
def Transfer (tie : Bool) (s : DBState) (req : TransferRequest)
    (idempotencyKey : String) : TransferOutcome :=
  let nreq := normalizeRequest req
  ⟨(transferCore tie s nreq idempotencyKey).1,
   (transferCore tie s nreq idempotencyKey).2, nreq⟩

/-- `PostgresRepository.GetAccountBalance`: validate the raw inputs,
query by the trimmed account id and trimmed-uppercased currency; a
missing row yields balance 0 for the company account and
`AccountNotFound` otherwise. -/
def GetAccountBalance (s : DBState) (currency accountID : String) :
    Except ApiErr Account :=
  let normCurrency := strUpper (strTrim currency)
  let normAccountID := strTrim accountID
  match validateCurrencyAndAccount currency accountID with
  | some e => .error e
  | none =>
      match findAccount s normAccountID normCurrency with
      | some row => .ok ⟨normAccountID, normCurrency, row.balance⟩
      | none =>
          if eqFold normAccountID companyAccountID then
            .ok ⟨normAccountID, normCurrency, 0⟩
          else
            .error .accountNotFound

/-- The idempotency-key guard in the POST handlers
(`operator.go`): the key is rejected exactly when it is empty. -/
def handlerRejectsIdemKey (key : String) : Bool := key == ""

/-- `HandleTransferError` (`error.go`): the HTTP status attached to each
error kind; anything unclassified — including wrapped
`UnhandledDatabaseError` — falls through to 500. -/
def transferErrorStatus (e : ApiErr) : Nat :=
  match e with
  | .insufficientBalance => 422
  | .duplicateTransaction => 422
  | .sameAccountIDs => 400
  | .invalidAmount => 400
  | .invalidAccountID => 400
  | .invalidCurrency => 400
  | .invalidRequest => 400
  | _ => 500

/-- Well-formedness of a database state: surrogate ids are unique and
below their allocators.  Holds of `emptyDB` and is preserved by every
write primitive. -/
def WF (s : DBState) : Prop :=
  (s.accounts.map (·.id)).Nodup ∧
  (∀ a ∈ s.accounts, a.id < s.nextAccountId) ∧
  (s.transactions.map (·.id)).Nodup ∧
  (∀ t ∈ s.transactions, t.id < s.nextTxId)

instance (s : DBState) : Decidable (WF s) := by
  unfold WF
  infer_instance

/-- The DEBIT row inserted by `createDoubleEntry` when the transaction
began in state `s1`. -/
def debitRowOf (s1 : DBState) (req : TransferRequest) (fid : Nat) (key : String) : TxRow :=
  ⟨s1.nextTxId, fid, req.amount, .DEBIT, key, req.remarks, s1.clock⟩

/-- The CREDIT row inserted by `createDoubleEntry` when the transaction
began in state `s1`. -/
def creditRowOf (s1 : DBState) (req : TransferRequest) (tid : Nat) (key : String) : TxRow :=
  ⟨s1.nextTxId + 1, tid, req.amount, .CREDIT, key, req.remarks, s1.clock⟩

/-- The state after `createDoubleEntry` succeeded inside the transaction
that began in state `s1`. -/
def pairState (s1 : DBState) (req : TransferRequest) (fid tid : Nat) (key : String) : DBState :=
  { s1 with
      transactions :=
        s1.transactions ++ [debitRowOf s1 req fid key, creditRowOf s1 req tid key]
      nextTxId := s1.nextTxId + 2 }

/-- The committed state of a successful transfer whose transaction began
in state `s1` with locked source id `fid` and destination id `tid`. -/
def finalState (s1 : DBState) (req : TransferRequest) (fid tid : Nat) (key : String) : DBState :=
  let s3 :=
    addToBalance
      (addToBalance (pairState s1 req fid tid key) req.amount.neg
        req.fromAccountID req.currency)
      req.amount req.toAccountID req.currency
  { s3 with clock := s3.clock + 1 }

/-- A sample request used by concrete witnesses: the deposit rewrite of
201 units of USD into `alice`. -/
def sampleDeposit : TransferRequest :=
  ⟨companyAccountID, "alice", (201 : Int), "USD", "deposit"⟩

/-- The database after the sample deposit committed. -/
def stateAfterDeposit : DBState := (Transfer true emptyDB sampleDeposit "k1").state

/-- A sample user-to-user payment larger than alice's balance. -/
def sampleOverdraw : TransferRequest := ⟨"alice", "bob", (500 : Int), "USD", "pay"⟩

/-- A small sample user-to-user payment. -/
def samplePay : TransferRequest := ⟨"alice", "bob", (5 : Int), "USD", "pay"⟩

/-- A sample withdrawal rewrite: alice pays the company account. -/
def sampleWithdraw : TransferRequest :=
  ⟨"alice", companyAccountID, (50 : Int), "USD", "payout"⟩

/-- An idempotency key of 51 characters, one more than the `group_id`
column holds. -/
def longKey : String := "aaaaaaaaaaaaaaaaaaaaaaaaaaaaaaaaaaaaaaaaaaaaaaaaaaa"

theorem find?_append_some {α} (p : α → Bool) {l1 : List α} (l2 : List α) {a : α}
    (h : l1.find? p = some a) : (l1 ++ l2).find? p = some a := by
  rw [List.find?_append, h]; rfl

theorem find?_append_none {α} (p : α → Bool) {l1 : List α} (l2 : List α)
    (h : l1.find? p = none) : (l1 ++ l2).find? p = l2.find? p := by
  rw [List.find?_append, h]; rfl

theorem findAccount_spec {s : DBState} {u c : String} {r : AccountRow}
    (h : findAccount s u c = some r) :
    r ∈ s.accounts ∧ r.userId = u ∧ r.currency = c := by
  refine ⟨List.mem_of_find?_eq_some h, ?_, ?_⟩ <;>
  · have hp := List.find?_some h
    simp only [Bool.and_eq_true, beq_iff_eq] at hp
    first
      | exact hp.1
      | exact hp.2

theorem upsertAccount_transactions (s : DBState) (u c : String) :
    (upsertAccount s u c).transactions = s.transactions := by
  unfold upsertAccount; split <;> rfl

theorem upsertAccount_clock (s : DBState) (u c : String) :
    (upsertAccount s u c).clock = s.clock := by
  unfold upsertAccount; split <;> rfl

theorem upsertAccount_nextTxId (s : DBState) (u c : String) :
    (upsertAccount s u c).nextTxId = s.nextTxId := by
  unfold upsertAccount; split <;> rfl

theorem upsertAccount_find_mono {s : DBState} {u' c' : String} {r : AccountRow}
    (u c : String) (h : findAccount s u' c' = some r) :
    findAccount (upsertAccount s u c) u' c' = some r := by
  unfold upsertAccount; split
  · exact h
  · exact find?_append_some _ _ h

theorem upsertAccount_find_self (s : DBState) (u c : String) :
    ∃ r, findAccount (upsertAccount s u c) u c = some r := by
  unfold upsertAccount
  cases hf : findAccount s u c with
  | some r => exact ⟨r, hf⟩
  | none =>
      refine ⟨⟨s.nextAccountId, u, c, 0⟩, ?_⟩
      show (s.accounts ++ [_]).find? _ = _
      rw [find?_append_none _ _ hf]
      simp [List.find?]

theorem upsertAccounts_transactions (s : DBState) (req : TransferRequest) :
    (upsertAccounts s req).transactions = s.transactions := by
  unfold upsertAccounts
  rw [upsertAccount_transactions, upsertAccount_transactions]

theorem upsertAccounts_clock (s : DBState) (req : TransferRequest) :
    (upsertAccounts s req).clock = s.clock := by
  unfold upsertAccounts
  rw [upsertAccount_clock, upsertAccount_clock]

theorem upsertAccounts_nextTxId (s : DBState) (req : TransferRequest) :
    (upsertAccounts s req).nextTxId = s.nextTxId := by
  unfold upsertAccounts
  rw [upsertAccount_nextTxId, upsertAccount_nextTxId]

theorem upsertAccounts_find_mono {s : DBState} {u' c' : String} {r : AccountRow}
    (req : TransferRequest) (h : findAccount s u' c' = some r) :
    findAccount (upsertAccounts s req) u' c' = some r :=
  upsertAccount_find_mono _ _ (upsertAccount_find_mono _ _ h)

theorem upsertAccounts_find_from (s : DBState) (req : TransferRequest) :
    ∃ r, findAccount (upsertAccounts s req) req.fromAccountID req.currency = some r := by
  obtain ⟨r, hr⟩ := upsertAccount_find_self s req.fromAccountID req.currency
  exact ⟨r, upsertAccount_find_mono _ _ hr⟩

theorem upsertAccounts_find_to (s : DBState) (req : TransferRequest) :
    ∃ r, findAccount (upsertAccounts s req) req.toAccountID req.currency = some r :=
  upsertAccount_find_self (upsertAccount s req.fromAccountID req.currency)
    req.toAccountID req.currency

theorem wf_upsertAccount {s : DBState} (h : WF s) (u c : String) :
    WF (upsertAccount s u c) := by
  obtain ⟨h1, h2, h3, h4⟩ := h
  unfold upsertAccount
  split
  · exact ⟨h1, h2, h3, h4⟩
  · refine ⟨?_, ?_, h3, h4⟩
    · rw [List.map_append]
      refine List.Nodup.append h1 (by simp) ?_
      intro x hx hx'
      simp only [List.map_cons, List.map_nil, List.mem_singleton] at hx'
      obtain ⟨a, ha, rfl⟩ := List.mem_map.mp hx
      exact absurd (hx' ▸ h2 a ha) (lt_irrefl _)
    · intro a ha
      rcases List.mem_append.mp ha with hmem | hmem
      · exact Nat.lt_succ_of_lt (h2 a hmem)
      · simp only [List.mem_singleton] at hmem
        subst hmem
        exact Nat.lt_succ_self _

theorem wf_upsertAccounts {s : DBState} (h : WF s) (req : TransferRequest) :
    WF (upsertAccounts s req) :=
  wf_upsertAccount (wf_upsertAccount h _ _) _ _

theorem addToBalance_transactions (s : DBState) (d : Int) (u c : String) :
    (addToBalance s d u c).transactions = s.transactions := rfl

theorem addToBalance_mem {s : DBState} {a : AccountRow} (d : Int) (u c : String)
    (ha : a ∈ s.accounts) :
    ∃ b ∈ (addToBalance s d u c).accounts,
      b.id = a.id ∧ b.userId = a.userId ∧ b.currency = a.currency := by
  refine ⟨_, List.mem_map_of_mem _ ha, ?_⟩
  dsimp only
  split <;> exact ⟨rfl, rfl, rfl⟩

theorem insertTransaction_ok {s : DBState} {aid : Nat} {amt : Int}
    {ty : DebitCredit} {d g : String} {s' : DBState} {n : Nat}
    (h : insertTransaction s aid amt ty d g = .ok (s', n)) :
    s' = { s with
            transactions := s.transactions ++ [⟨s.nextTxId, aid, amt, ty, g, d, s.clock⟩]
            nextTxId := s.nextTxId + 1 } ∧
    n = s.nextTxId ∧ g.length ≤ 50 := by
  unfold insertTransaction at h
  split at h
  · exact absurd h (by simp)
  · split at h
    · exact absurd h (by simp)
    · rename_i hlen _
      simp only [Except.ok.injEq, Prod.mk.injEq] at h
      refine ⟨h.1.symm, h.2.symm, ?_⟩
      simp only [Bool.not_eq_true, Bool.or_eq_false_iff, decide_eq_false_iff_not,
        not_lt] at hlen
      exact hlen.1

theorem createDoubleEntry_ok {s : DBState} {req : TransferRequest}
    {fid tid : Nat} {key : String} {s2 : DBState} {di ci : Nat}
    (h : createDoubleEntry s req fid tid key = .ok (s2, di, ci)) :
    s2 = pairState s req fid tid key ∧ di = s.nextTxId ∧ ci = s.nextTxId + 1 ∧
    key.length ≤ 50 := by
  unfold createDoubleEntry at h
  split at h
  · exact absurd h (by simp)
  · rename_i s1 di' hins1
    split at h
    · exact absurd h (by simp)
    · rename_i s2' ci' hins2
      simp only [Except.ok.injEq, Prod.mk.injEq] at h
      obtain ⟨rfl, rfl, rfl⟩ := h
      obtain ⟨rfl, rfl, hk⟩ := insertTransaction_ok hins1
      obtain ⟨rfl, rfl, -⟩ := insertTransaction_ok hins2
      refine ⟨?_, rfl, rfl, hk⟩
      simp [pairState, debitRowOf, creditRowOf]

theorem updateBalances_ok {s : DBState} {req : TransferRequest} {s3 : DBState}
    (h : updateBalances s req = .ok s3) :
    s3 = addToBalance (addToBalance s req.amount.neg req.fromAccountID req.currency)
          req.amount req.toAccountID req.currency := by
  simp only [updateBalances] at h
  split at h
  · exact absurd h (by simp)
  · split at h
    · exact absurd h (by simp)
    · simp only [Except.ok.injEq] at h
      exact h.symm

theorem lockAccounts_ok {s : DBState} {req : TransferRequest} {pair : LockResult}
    (h : lockAccounts s req = .ok pair) :
    ∃ frow trow,
      findAccount s req.fromAccountID req.currency = some frow ∧
      findAccount s req.toAccountID req.currency = some trow ∧
      pair = ⟨frow.id, frow.balance, trow.id, trow.balance, [frow.id, trow.id]⟩ ∧
      (frow.balance < req.amount && !eqFold req.fromAccountID companyAccountID) = false := by
  cases hf : findAccount s req.fromAccountID req.currency with
  | none => simp [lockAccounts, selectLockAccount, hf] at h
  | some frow =>
      cases ht : findAccount s req.toAccountID req.currency with
      | none =>
          simp only [lockAccounts, selectLockAccount, hf, ht, Option.map_some',
            Option.map_none'] at h
          split at h <;> exact absurd h (by simp)
      | some trow =>
          simp only [lockAccounts, selectLockAccount, hf, ht, Option.map_some',
            Option.map_none'] at h
          split at h
          · exact absurd h (by simp)
          · rename_i hbal
            simp only [Except.ok.injEq] at h
            exact ⟨frow, trow, rfl, rfl, h.symm, Bool.not_eq_true _ ▸ hbal⟩

theorem lockAccounts_eq_ok {s : DBState} {req : TransferRequest}
    {frow trow : AccountRow}
    (hf : findAccount s req.fromAccountID req.currency = some frow)
    (ht : findAccount s req.toAccountID req.currency = some trow)
    (hbal : (frow.balance < req.amount &&
      !eqFold req.fromAccountID companyAccountID) = false) :
    lockAccounts s req = .ok ⟨frow.id, frow.balance, trow.id, trow.balance,
      [frow.id, trow.id]⟩ := by
  simp [lockAccounts, selectLockAccount, hf, ht, hbal]

theorem transferCore_ok_elim {tie : Bool} {s : DBState} {req : TransferRequest}
    {key : String} {l : List TransactionView} {st : DBState}
    (h : transferCore tie s req key = (.ok l, st)) :
    validateCurrencyAndAccount req.currency req.fromAccountID = none ∧
    validateCurrencyAndAccount req.currency req.toAccountID = none ∧
    eqFold req.fromAccountID req.toAccountID = false ∧
    req.amount ≠ 0 ∧ ¬req.amount < 0 ∧
    countGroup s key = 0 ∧ key.length ≤ 50 ∧
    ∃ frow trow,
      findAccount (upsertAccounts s req) req.fromAccountID req.currency = some frow ∧
      findAccount (upsertAccounts s req) req.toAccountID req.currency = some trow ∧
      (frow.balance < req.amount && !eqFold req.fromAccountID companyAccountID) = false ∧
      st = finalState (upsertAccounts s req) req frow.id trow.id key ∧
      getTransactionsByIDs tie st (upsertAccounts s req).nextTxId
        ((upsertAccounts s req).nextTxId + 1) = .ok l := by
  simp only [transferCore] at h
  split at h
  · exact absurd h (by simp)
  split at h
  · exact absurd h (by simp)
  split at h
  · exact absurd h (by simp)
  split at h
  · exact absurd h (by simp)
  split at h
  · exact absurd h (by simp)
  split at h
  · exact absurd h (by simp)
  rename_i a1 hv1 a2 hv2 hsame hzero hneg hdup
  split at h
  · exact absurd h (by simp)
  rename_i pair hlock
  split at h
  · exact absurd h (by simp)
  rename_i s2 di ci hcreate
  split at h
  · exact absurd h (by simp)
  rename_i s3 hupd
  simp only [Prod.mk.injEq] at h
  obtain ⟨hread, hst⟩ := h
  obtain ⟨frow, trow, hf, ht, hpair, hbal⟩ := lockAccounts_ok hlock
  subst hpair
  obtain ⟨hs2, hdi, hci, hkey⟩ := createDoubleEntry_ok hcreate
  subst hs2 hdi hci
  have hs3 := updateBalances_ok hupd
  subst hs3
  refine ⟨hv1, hv2, ?_, ?_, hneg, ?_, hkey, frow, trow, hf, ht, hbal, ?_, ?_⟩
  · exact Bool.not_eq_true _ ▸ hsame
  · simpa using hzero
  · omega
  · rw [← hst]; rfl
  · rw [← hst]
    simp only [pairState] at hread ⊢
    exact hread

theorem normalizeRequest_amount (req : TransferRequest) :
    (normalizeRequest req).amount = req.amount := rfl

theorem normalizeRequest_remarks (req : TransferRequest) :
    (normalizeRequest req).remarks = req.remarks := rfl

theorem eqFold_refl (a : String) : eqFold a a = true := by
  simp [eqFold]

theorem ne_of_eqFold_false {a b : String} (h : eqFold a b = false) : a ≠ b := by
  intro hab
  rw [hab, eqFold_refl] at h
  exact absurd h (by simp)

theorem finalState_transactions (s1 : DBState) (req : TransferRequest)
    (fid tid : Nat) (key : String) :
    (finalState s1 req fid tid key).transactions =
      s1.transactions ++ [debitRowOf s1 req fid key, creditRowOf s1 req tid key] := rfl

theorem finalState_mem {s1 : DBState} {a : AccountRow} (req : TransferRequest)
    (fid tid : Nat) (key : String) (ha : a ∈ s1.accounts) :
    ∃ b ∈ (finalState s1 req fid tid key).accounts,
      b.id = a.id ∧ b.userId = a.userId ∧ b.currency = a.currency := by
  have h1 : a ∈ (pairState s1 req fid tid key).accounts := ha
  obtain ⟨b, hb, hid, hu, hc⟩ :=
    addToBalance_mem req.amount.neg req.fromAccountID req.currency h1
  obtain ⟨b2, hb2, hid2, hu2, hc2⟩ :=
    addToBalance_mem req.amount req.toAccountID req.currency hb
  exact ⟨b2, hb2, hid2.trans hid, hu2.trans hu, hc2.trans hc⟩

theorem countGroup_filter_nil {s : DBState} {key : String}
    (h : countGroup s key = 0) :
    s.transactions.filter (fun t => t.groupId == key) = [] :=
  List.length_eq_zero.mp h

theorem row_eq_of_id_eq {s : DBState} (h : WF s) {a b : AccountRow}
    (ha : a ∈ s.accounts) (hb : b ∈ s.accounts) (hid : a.id = b.id) : a = b :=
  List.inj_on_of_nodup_map h.1 ha hb hid

/-- Claim C9: every `Transfer` call, also one that fails validation,
leaves the caller's request struct with the currency trimmed and
uppercased, both account ids trimmed, and the amount and remarks
untouched. -/
theorem C9_request_normalized_in_place (tie : Bool) (s : DBState)
    (req : TransferRequest) (key : String) :
    (Transfer tie s req key).request =
      { fromAccountID := strTrim req.fromAccountID
        toAccountID := strTrim req.toAccountID
        amount := req.amount
        currency := strUpper (strTrim req.currency)
        remarks := req.remarks } := rfl

theorem transferCore_stop_val1 (tie : Bool) (s : DBState) (req : TransferRequest)
    (key : String) {e : ApiErr}
    (h : validateCurrencyAndAccount req.currency req.fromAccountID = some e) :
    transferCore tie s req key = (.error e, s) := by
  simp [transferCore, h]

theorem transferCore_stop_val2 (tie : Bool) (s : DBState) (req : TransferRequest)
    (key : String) {e : ApiErr}
    (h1 : validateCurrencyAndAccount req.currency req.fromAccountID = none)
    (h : validateCurrencyAndAccount req.currency req.toAccountID = some e) :
    transferCore tie s req key = (.error e, s) := by
  simp [transferCore, h1, h]

theorem transferCore_stop_same (tie : Bool) (s : DBState) (req : TransferRequest)
    (key : String)
    (h1 : validateCurrencyAndAccount req.currency req.fromAccountID = none)
    (h2 : validateCurrencyAndAccount req.currency req.toAccountID = none)
    (hsame : eqFold req.fromAccountID req.toAccountID = true) :
    transferCore tie s req key = (.error .sameAccountIDs, s) := by
  simp [transferCore, h1, h2, hsame]

theorem transferCore_stop_zero (tie : Bool) (s : DBState) (req : TransferRequest)
    (key : String)
    (h1 : validateCurrencyAndAccount req.currency req.fromAccountID = none)
    (h2 : validateCurrencyAndAccount req.currency req.toAccountID = none)
    (hsame : eqFold req.fromAccountID req.toAccountID = false)
    (hz : req.amount = 0) :
    transferCore tie s req key = (.error .invalidAmount, s) := by
  simp [transferCore, h1, h2, hsame, hz]

theorem transferCore_stop_neg (tie : Bool) (s : DBState) (req : TransferRequest)
    (key : String)
    (h1 : validateCurrencyAndAccount req.currency req.fromAccountID = none)
    (h2 : validateCurrencyAndAccount req.currency req.toAccountID = none)
    (hsame : eqFold req.fromAccountID req.toAccountID = false)
    (hn : req.amount < 0) :
    transferCore tie s req key = (.error .negativeAmount, s) := by
  have hz : (req.amount == 0) = false := by
    simp only [beq_eq_false_iff_ne, ne_eq]
    omega
  simp [transferCore, h1, h2, hsame, hz, hn]

theorem transferCore_stop_dup (tie : Bool) (s : DBState) (req : TransferRequest)
    (key : String)
    (h1 : validateCurrencyAndAccount req.currency req.fromAccountID = none)
    (h2 : validateCurrencyAndAccount req.currency req.toAccountID = none)
    (hsame : eqFold req.fromAccountID req.toAccountID = false)
    (hz : req.amount ≠ 0) (hn : ¬req.amount < 0)
    (hdup : 0 < countGroup s key) :
    transferCore tie s req key = (.error .duplicateTransaction, s) := by
  have hz' : (req.amount == 0) = false := by
    simp only [beq_eq_false_iff_ne, ne_eq]
    omega
  simp [transferCore, h1, h2, hsame, hz', hn, hdup]

theorem validate_some_currency {c : String} (a : String)
    (h : c = "" ∨ c.length > 10) :
    validateCurrencyAndAccount c a = some .invalidCurrency := by
  rcases h with h | h <;> simp [validateCurrencyAndAccount, h]

theorem validate_some_account {c a : String}
    (hc : ¬(c = "" ∨ c.length > 10)) (h : a = "" ∨ a.length > 255) :
    validateCurrencyAndAccount c a = some .invalidAccountID := by
  obtain ⟨hc1, hc2⟩ := not_or.mp hc
  rcases h with h | h <;> simp [validateCurrencyAndAccount, hc1, hc2, h]

theorem validate_none {c a : String}
    (hc : ¬(c = "" ∨ c.length > 10)) (ha : ¬(a = "" ∨ a.length > 255)) :
    validateCurrencyAndAccount c a = none := by
  obtain ⟨hc1, hc2⟩ := not_or.mp hc
  obtain ⟨ha1, ha2⟩ := not_or.mp ha
  simp [validateCurrencyAndAccount, hc1, hc2, ha1, ha2]

/-- Claim C5: after the currency, account-id and same-account checks
pass, a zero amount is rejected with `InvalidAmount` and a negative
amount with `NegativeAmount`, the same-account check having priority,
and in each case the database state is untouched. -/
theorem C5_amount_checks (tie : Bool) (s : DBState) (req : TransferRequest)
    (key : String)
    (h1 : validateCurrencyAndAccount (normalizeRequest req).currency
      (normalizeRequest req).fromAccountID = none)
    (h2 : validateCurrencyAndAccount (normalizeRequest req).currency
      (normalizeRequest req).toAccountID = none) :
    (eqFold (normalizeRequest req).fromAccountID
        (normalizeRequest req).toAccountID = true →
      (Transfer tie s req key).result = .error .sameAccountIDs ∧
        (Transfer tie s req key).state = s) ∧
    (eqFold (normalizeRequest req).fromAccountID
        (normalizeRequest req).toAccountID = false →
      req.amount = 0 →
      (Transfer tie s req key).result = .error .invalidAmount ∧
        (Transfer tie s req key).state = s) ∧
    (eqFold (normalizeRequest req).fromAccountID
        (normalizeRequest req).toAccountID = false →
      req.amount < 0 →
      (Transfer tie s req key).result = .error .negativeAmount ∧
        (Transfer tie s req key).state = s) := by
  refine ⟨fun hsame => ?_, fun hsame hz => ?_, fun hsame hn => ?_⟩
  · have e := transferCore_stop_same tie s (normalizeRequest req) key h1 h2 hsame
    exact ⟨congrArg Prod.fst e, congrArg Prod.snd e⟩
  · have e := transferCore_stop_zero tie s (normalizeRequest req) key h1 h2 hsame hz
    exact ⟨congrArg Prod.fst e, congrArg Prod.snd e⟩
  · have e := transferCore_stop_neg tie s (normalizeRequest req) key h1 h2 hsame hn
    exact ⟨congrArg Prod.fst e, congrArg Prod.snd e⟩

/-- Claim C6: a currency that is empty or longer than 10 characters
after normalization is rejected with `InvalidCurrency` before anything
else; with a good currency, a bad (empty or > 255 characters) source id
is rejected with `InvalidAccountID`, and only then a bad destination id;
in each case before any database access. -/
theorem C6_field_bounds (tie : Bool) (s : DBState) (req : TransferRequest)
    (key : String) :
    ((strUpper (strTrim req.currency) = "" ∨
        (strUpper (strTrim req.currency)).length > 10) →
      (Transfer tie s req key).result = .error .invalidCurrency ∧
        (Transfer tie s req key).state = s) ∧
    (¬(strUpper (strTrim req.currency) = "" ∨
        (strUpper (strTrim req.currency)).length > 10) →
      (strTrim req.fromAccountID = "" ∨ (strTrim req.fromAccountID).length > 255) →
      (Transfer tie s req key).result = .error .invalidAccountID ∧
        (Transfer tie s req key).state = s) ∧
    (¬(strUpper (strTrim req.currency) = "" ∨
        (strUpper (strTrim req.currency)).length > 10) →
      ¬(strTrim req.fromAccountID = "" ∨ (strTrim req.fromAccountID).length > 255) →
      (strTrim req.toAccountID = "" ∨ (strTrim req.toAccountID).length > 255) →
      (Transfer tie s req key).result = .error .invalidAccountID ∧
        (Transfer tie s req key).state = s) := by
  refine ⟨fun hc => ?_, fun hc hf => ?_, fun hc hf ht => ?_⟩
  · have e := transferCore_stop_val1 tie s (normalizeRequest req) key
      (validate_some_currency (normalizeRequest req).fromAccountID hc)
    exact ⟨congrArg Prod.fst e, congrArg Prod.snd e⟩
  · have e := transferCore_stop_val1 tie s (normalizeRequest req) key
      (validate_some_account hc hf)
    exact ⟨congrArg Prod.fst e, congrArg Prod.snd e⟩
  · have e := transferCore_stop_val2 tie s (normalizeRequest req) key
      (validate_none hc hf) (validate_some_account hc ht)
    exact ⟨congrArg Prod.fst e, congrArg Prod.snd e⟩

/-- Claim C2: when a ledger entry with the given idempotency key already
exists, `Transfer` never succeeds and leaves the committed state wholly
untouched, and — whenever the request passes the field validations — the
error is exactly `DuplicateTransaction`. -/
theorem C2_duplicate_key (tie : Bool) (s : DBState) (req : TransferRequest)
    (key : String) (hdup : 0 < countGroup s key) :
    (∀ l, (Transfer tie s req key).result ≠ .ok l) ∧
    (Transfer tie s req key).state = s ∧
    (validateCurrencyAndAccount (normalizeRequest req).currency
        (normalizeRequest req).fromAccountID = none →
      validateCurrencyAndAccount (normalizeRequest req).currency
        (normalizeRequest req).toAccountID = none →
      eqFold (normalizeRequest req).fromAccountID
        (normalizeRequest req).toAccountID = false →
      req.amount ≠ 0 → ¬req.amount < 0 →
      (Transfer tie s req key).result = .error .duplicateTransaction) := by
  have main : ∃ e, transferCore tie s (normalizeRequest req) key = (.error e, s) ∧
      (validateCurrencyAndAccount (normalizeRequest req).currency
          (normalizeRequest req).fromAccountID = none →
        validateCurrencyAndAccount (normalizeRequest req).currency
          (normalizeRequest req).toAccountID = none →
        eqFold (normalizeRequest req).fromAccountID
          (normalizeRequest req).toAccountID = false →
        req.amount ≠ 0 → ¬req.amount < 0 → e = .duplicateTransaction) := by
    cases hv1 : validateCurrencyAndAccount (normalizeRequest req).currency
        (normalizeRequest req).fromAccountID with
    | some e =>
        refine ⟨e, transferCore_stop_val1 tie s _ key hv1, fun h => ?_⟩
        rw [h] at hv1
        contradiction
    | none =>
        cases hv2 : validateCurrencyAndAccount (normalizeRequest req).currency
            (normalizeRequest req).toAccountID with
        | some e =>
            refine ⟨e, transferCore_stop_val2 tie s _ key hv1 hv2, fun _ h => ?_⟩
            rw [h] at hv2
            contradiction
        | none =>
            cases hsame : eqFold (normalizeRequest req).fromAccountID
                (normalizeRequest req).toAccountID with
            | true =>
                refine ⟨.sameAccountIDs,
                  transferCore_stop_same tie s _ key hv1 hv2 hsame, fun _ _ h => ?_⟩
                contradiction
            | false =>
                by_cases hz : req.amount = 0
                · refine ⟨.invalidAmount,
                    transferCore_stop_zero tie s _ key hv1 hv2 hsame hz,
                    fun _ _ _ h => absurd hz h⟩
                · by_cases hn : req.amount < 0
                  · refine ⟨.negativeAmount,
                      transferCore_stop_neg tie s _ key hv1 hv2 hsame hn,
                      fun _ _ _ _ h => absurd hn h⟩
                  · exact ⟨.duplicateTransaction,
                      transferCore_stop_dup tie s _ key hv1 hv2 hsame hz hn hdup,
                      fun _ _ _ _ _ => rfl⟩
  obtain ⟨e, he, hcond⟩ := main
  refine ⟨?_, congrArg Prod.snd he, ?_⟩
  · intro l hl
    have hr : (Transfer tie s req key).result = .error e := congrArg Prod.fst he
    rw [hl] at hr
    exact absurd hr (by simp)
  · intro a1 a2 a3 a4 a5
    have hr : (Transfer tie s req key).result = .error e := congrArg Prod.fst he
    rw [hcond a1 a2 a3 a4 a5] at hr
    exact hr

/-- Claim C3: a transfer from a non-company source whose stored balance
is below the requested amount aborts with `InsufficientBalance`; no
ledger entry is created and every account row that existed before keeps
its balance.  In the embedding the decisive comparison is the one in
`lockAccounts`, made against the balance read from the locked source row
inside the database transaction. -/
theorem C3_insufficient_balance (tie : Bool) (s : DBState)
    (req : TransferRequest) (key : String) {frow : AccountRow}
    (h1 : validateCurrencyAndAccount (normalizeRequest req).currency
      (normalizeRequest req).fromAccountID = none)
    (h2 : validateCurrencyAndAccount (normalizeRequest req).currency
      (normalizeRequest req).toAccountID = none)
    (hsame : eqFold (normalizeRequest req).fromAccountID
      (normalizeRequest req).toAccountID = false)
    (hz : req.amount ≠ 0) (hneg : ¬req.amount < 0)
    (hdup : countGroup s key = 0)
    (hf : findAccount s (normalizeRequest req).fromAccountID
      (normalizeRequest req).currency = some frow)
    (hlow : frow.balance < req.amount)
    (hcomp : eqFold (normalizeRequest req).fromAccountID companyAccountID = false) :
    (Transfer tie s req key).result = .error .insufficientBalance ∧
    (Transfer tie s req key).state.transactions = s.transactions ∧
    (∀ u c r, findAccount s u c = some r →
      findAccount (Transfer tie s req key).state u c = some r) := by
  have hf1 := upsertAccounts_find_mono (normalizeRequest req) hf
  have hguard : (frow.balance < (normalizeRequest req).amount &&
      !eqFold (normalizeRequest req).fromAccountID companyAccountID) = true := by
    rw [hcomp]
    simp only [Bool.not_false, Bool.and_true, decide_eq_true_eq]
    exact hlow
  have hlock : lockAccounts (upsertAccounts s (normalizeRequest req))
      (normalizeRequest req) = .error .insufficientBalance := by
    simp only [lockAccounts, selectLockAccount, hf1, Option.map_some']
    rw [if_pos hguard]
  have hz' : ((normalizeRequest req).amount == 0) = false := by
    simp only [beq_eq_false_iff_ne, ne_eq, normalizeRequest_amount]
    omega
  have e : transferCore tie s (normalizeRequest req) key =
      (.error .insufficientBalance, upsertAccounts s (normalizeRequest req)) := by
    simp [transferCore, h1, h2, hsame, hz', hz, normalizeRequest_amount, hneg,
      hdup, hlock]
  have hst : (Transfer tie s req key).state =
      upsertAccounts s (normalizeRequest req) := congrArg Prod.snd e
  refine ⟨congrArg Prod.fst e, ?_, ?_⟩
  · rw [hst, upsertAccounts_transactions]
  · intro u c r hr
    rw [hst]
    exact upsertAccounts_find_mono _ hr

/-- Claim C4: inside the transfer, the lock query matches the accounts
row whose `user_id` is the trimmed source id and whose `currency` is the
uppercased currency, returning exactly that row's `(id, balance)`, and
the source row is locked before the destination row. -/
theorem C4_lock_matches_source (s : DBState) (req : TransferRequest)
    {frow trow : AccountRow}
    (hf : findAccount s (strTrim req.fromAccountID)
      (strUpper (strTrim req.currency)) = some frow)
    (ht : findAccount s (strTrim req.toAccountID)
      (strUpper (strTrim req.currency)) = some trow)
    (hbal : (frow.balance < req.amount &&
      !eqFold (strTrim req.fromAccountID) companyAccountID) = false) :
    selectLockAccount s (normalizeRequest req).fromAccountID
      (normalizeRequest req).currency = some (frow.id, frow.balance) ∧
    lockAccounts s (normalizeRequest req) =
      .ok ⟨frow.id, frow.balance, trow.id, trow.balance, [frow.id, trow.id]⟩ := by
  have hf' : findAccount s (normalizeRequest req).fromAccountID
      (normalizeRequest req).currency = some frow := hf
  have ht' : findAccount s (normalizeRequest req).toAccountID
      (normalizeRequest req).currency = some trow := ht
  exact ⟨by simp [selectLockAccount, hf'], lockAccounts_eq_ok hf' ht' hbal⟩

/-- Claim C8: when no accounts row exists for the trimmed user id and
normalized currency, `GetAccountBalance` returns balance 0 for the
company account and an `AccountNotFound` error for anyone else. -/
theorem C8_missing_account (s : DBState) (currency accountID : String)
    (hval : validateCurrencyAndAccount currency accountID = none)
    (hnone : findAccount s (strTrim accountID)
      (strUpper (strTrim currency)) = none) :
    (eqFold (strTrim accountID) companyAccountID = true →
      GetAccountBalance s currency accountID =
        .ok ⟨strTrim accountID, strUpper (strTrim currency), 0⟩) ∧
    (eqFold (strTrim accountID) companyAccountID = false →
      GetAccountBalance s currency accountID = .error .accountNotFound) := by
  constructor <;> intro hcomp <;>
    simp [GetAccountBalance, hval, hnone, hcomp]

/-- Claim C10: no layer bounds the idempotency key to 50 characters: the
handlers reject only an empty key, a 51-character key passes the handler
check and the whole request validation, and the transfer then fails at
the first ledger insert with the wrapped `UnhandledDatabaseError`, which
the HTTP error mapping turns into a 500 — not a 400-class validation
response. -/
theorem C10_long_key_unchecked :
    longKey.length = 51 ∧
    handlerRejectsIdemKey longKey = false ∧
    handlerRejectsIdemKey "" = true ∧
    validateCurrencyAndAccount (normalizeRequest sampleDeposit).currency
      (normalizeRequest sampleDeposit).fromAccountID = none ∧
    countGroup emptyDB longKey = 0 ∧
    (Transfer true emptyDB sampleDeposit longKey).result =
      .error .unhandledDatabase ∧
    (Transfer true emptyDB sampleDeposit longKey).state.transactions = [] ∧
    transferErrorStatus .unhandledDatabase = 500 := by
  decide

theorem sortDescCreated_pair (tie : Bool) (d c : TxRow)
    (h : d.createdAt = c.createdAt) :
    sortDescCreated tie [d, c] = if tie then [d, c] else [c, d] := by
  cases tie <;>
    simp [sortDescCreated, sortDescCreated.go, insertDesc, h]

/-- Claim C1: a successful transfer leaves exactly two ledger entries
carrying the idempotency key as `group_id`: a DEBIT owned by the source
account and a CREDIT owned by the destination account, both for the
requested (positive) amount, on two distinct accounts of the request's
currency. -/
theorem C1_double_entry (tie : Bool) (s : DBState) (req : TransferRequest)
    (key : String) {l : List TransactionView} (hWF : WF s)
    (h : (Transfer tie s req key).result = .ok l) :
    ∃ d c,
      ((Transfer tie s req key).state.transactions.filter
        (fun t => t.groupId == key)) = [d, c] ∧
      d.ty = .DEBIT ∧ c.ty = .CREDIT ∧
      d.amount = req.amount ∧ c.amount = req.amount ∧ 0 < req.amount ∧
      d.accountId ≠ c.accountId ∧
      (∃ a ∈ (Transfer tie s req key).state.accounts,
        a.id = d.accountId ∧ a.userId = (normalizeRequest req).fromAccountID ∧
        a.currency = (normalizeRequest req).currency) ∧
      (∃ a ∈ (Transfer tie s req key).state.accounts,
        a.id = c.accountId ∧ a.userId = (normalizeRequest req).toAccountID ∧
        a.currency = (normalizeRequest req).currency) := by
  have hpair : transferCore tie s (normalizeRequest req) key =
      ((Transfer tie s req key).result, (Transfer tie s req key).state) := rfl
  rw [h] at hpair
  obtain ⟨hv1, hv2, hsame, hz, hneg, hdup, hkey, frow, trow, hf, ht, hbal, hst, hread⟩ :=
    transferCore_ok_elim hpair
  have hWF1 : WF (upsertAccounts s (normalizeRequest req)) := wf_upsertAccounts hWF _
  obtain ⟨hfmem, hfuid, hfccy⟩ := findAccount_spec hf
  obtain ⟨htmem, htuid, htccy⟩ := findAccount_spec ht
  refine ⟨debitRowOf (upsertAccounts s (normalizeRequest req)) (normalizeRequest req)
      frow.id key,
    creditRowOf (upsertAccounts s (normalizeRequest req)) (normalizeRequest req)
      trow.id key, ?_, rfl, rfl, rfl, rfl, ?_, ?_, ?_, ?_⟩
  · rw [hst, finalState_transactions, List.filter_append,
      upsertAccounts_transactions, countGroup_filter_nil hdup]
    simp [debitRowOf, creditRowOf]
  · have hz' : req.amount ≠ 0 := hz
    have hneg' : ¬req.amount < 0 := hneg
    omega
  · show frow.id ≠ trow.id
    intro hid
    have heq := row_eq_of_id_eq hWF1 hfmem htmem hid
    have : (normalizeRequest req).fromAccountID = (normalizeRequest req).toAccountID := by
      rw [← hfuid, ← htuid, heq]
    exact ne_of_eqFold_false hsame this
  · rw [hst]
    obtain ⟨b, hb, hid, huid, hccy⟩ :=
      finalState_mem (normalizeRequest req) frow.id trow.id key hfmem
    exact ⟨b, hb, hid.trans rfl, huid.trans hfuid, hccy.trans hfccy⟩
  · rw [hst]
    obtain ⟨b, hb, hid, huid, hccy⟩ :=
      finalState_mem (normalizeRequest req) frow.id trow.id key htmem
    exact ⟨b, hb, hid.trans rfl, huid.trans htuid, hccy.trans htccy⟩

/-- Claim C7 (amended): a successful transfer returns exactly the views
of the two entries it created, ordered by `created_at` descending; both
entries carry the same transaction timestamp, so the pair order is the
tie-break of the `ORDER BY`, not a guaranteed DEBIT-first order. -/
theorem C7_readback_pair (tie : Bool) (s : DBState) (req : TransferRequest)
    (key : String) {l : List TransactionView} (hWF : WF s)
    (h : (Transfer tie s req key).result = .ok l) :
    ∃ d c dv cv,
      ((Transfer tie s req key).state.transactions.filter
        (fun t => t.groupId == key)) = [d, c] ∧
      d.ty = .DEBIT ∧ c.ty = .CREDIT ∧ d.createdAt = c.createdAt ∧
      rowToView (Transfer tie s req key).state d = some dv ∧
      rowToView (Transfer tie s req key).state c = some cv ∧
      l = (if tie then [dv, cv] else [cv, dv]) := by
  have hpair : transferCore tie s (normalizeRequest req) key =
      ((Transfer tie s req key).result, (Transfer tie s req key).state) := rfl
  rw [h] at hpair
  obtain ⟨hv1, hv2, hsame, hz, hneg, hdup, hkey, frow, trow, hf, ht, hbal, hst, hread⟩ :=
    transferCore_ok_elim hpair
  obtain ⟨hfmem, hfuid, hfccy⟩ := findAccount_spec hf
  obtain ⟨htmem, htuid, htccy⟩ := findAccount_spec ht
  obtain ⟨hnodupAcc, hbndAcc, hnodupTx, hbndTx⟩ := hWF
  refine ⟨debitRowOf (upsertAccounts s (normalizeRequest req)) (normalizeRequest req)
      frow.id key,
    creditRowOf (upsertAccounts s (normalizeRequest req)) (normalizeRequest req)
      trow.id key, ?_⟩
  have hfilter : ((Transfer tie s req key).state.transactions.filter
      (fun t => t.groupId == key)) =
      [debitRowOf (upsertAccounts s (normalizeRequest req)) (normalizeRequest req)
        frow.id key,
       creditRowOf (upsertAccounts s (normalizeRequest req)) (normalizeRequest req)
        trow.id key] := by
    rw [hst, finalState_transactions, List.filter_append,
      upsertAccounts_transactions, countGroup_filter_nil hdup]
    simp [debitRowOf, creditRowOf]
  -- identify the rows the readback query selects
  have hids : ((Transfer tie s req key).state.transactions.filter
      (fun t => t.id == (upsertAccounts s (normalizeRequest req)).nextTxId ||
        t.id == (upsertAccounts s (normalizeRequest req)).nextTxId + 1)) =
      [debitRowOf (upsertAccounts s (normalizeRequest req)) (normalizeRequest req)
        frow.id key,
       creditRowOf (upsertAccounts s (normalizeRequest req)) (normalizeRequest req)
        trow.id key] := by
    rw [hst, finalState_transactions, List.filter_append,
      upsertAccounts_transactions]
    have hold : (s.transactions.filter
        (fun t => t.id == (upsertAccounts s (normalizeRequest req)).nextTxId ||
          t.id == (upsertAccounts s (normalizeRequest req)).nextTxId + 1)) = [] := by
      rw [List.filter_eq_nil_iff]
      intro t htmem'
      have hlt : t.id < s.nextTxId := hbndTx t htmem'
      have hne : t.id ≠ (upsertAccounts s (normalizeRequest req)).nextTxId := by
        rw [upsertAccounts_nextTxId]
        omega
      have hne' : t.id ≠ (upsertAccounts s (normalizeRequest req)).nextTxId + 1 := by
        rw [upsertAccounts_nextTxId]
        omega
      simp [hne, hne']
    rw [hold]
    simp [debitRowOf, creditRowOf]
  obtain ⟨bf, hbf, hbfid, -, -⟩ :=
    hst ▸ finalState_mem (normalizeRequest req) frow.id trow.id key hfmem
  obtain ⟨bt, hbt, hbtid, -, -⟩ :=
    hst ▸ finalState_mem (normalizeRequest req) frow.id trow.id key htmem
  have hdv : ∃ dv, rowToView (Transfer tie s req key).state
      (debitRowOf (upsertAccounts s (normalizeRequest req)) (normalizeRequest req)
        frow.id key) = some dv := by
    have hsome := List.find?_isSome.mpr
      (⟨bf, hbf, by simp [hbfid]⟩ :
        ∃ x ∈ (Transfer tie s req key).state.accounts, (x.id == frow.id) = true)
    obtain ⟨a, ha⟩ := Option.isSome_iff_exists.mp hsome
    apply Option.isSome_iff_exists.mp
    simp only [rowToView, debitRowOf]
    rw [ha]
    rfl
  have hcv : ∃ cv, rowToView (Transfer tie s req key).state
      (creditRowOf (upsertAccounts s (normalizeRequest req)) (normalizeRequest req)
        trow.id key) = some cv := by
    have hsome := List.find?_isSome.mpr
      (⟨bt, hbt, by simp [hbtid]⟩ :
        ∃ x ∈ (Transfer tie s req key).state.accounts, (x.id == trow.id) = true)
    obtain ⟨a, ha⟩ := Option.isSome_iff_exists.mp hsome
    apply Option.isSome_iff_exists.mp
    simp only [rowToView, creditRowOf]
    rw [ha]
    rfl
  obtain ⟨dv, hdv⟩ := hdv
  obtain ⟨cv, hcv⟩ := hcv
  refine ⟨dv, cv, hfilter, rfl, rfl, rfl, hdv, hcv, ?_⟩
  -- compute the readback
  simp only [getTransactionsByIDs] at hread
  rw [hids] at hread
  rw [sortDescCreated_pair tie
    (debitRowOf (upsertAccounts s (normalizeRequest req)) (normalizeRequest req)
      frow.id key)
    (creditRowOf (upsertAccounts s (normalizeRequest req)) (normalizeRequest req)
      trow.id key) rfl] at hread
  cases tie with
  | true =>
      rw [if_pos rfl] at hread ⊢
      simp only [joinViews, hdv, hcv] at hread
      simp only [Except.ok.injEq] at hread
      exact hread.symm
  | false =>
      rw [if_neg (by decide)] at hread ⊢
      simp only [joinViews, hdv, hcv] at hread
      simp only [Except.ok.injEq] at hread
      exact hread.symm

/-- Claim C7 counterexample: a successful transfer whose returned slice
is CREDIT first, DEBIT second.  Both created rows carry the same
transaction timestamp, so `ORDER BY created_at DESC` does not fix their
relative order; under the reversed tie-break the pair comes back
CREDIT-first. -/
theorem C7_counterexample :
    (Transfer false emptyDB sampleDeposit "k1").result =
      .ok [⟨1, "alice", .CREDIT, 201, "USD", 201, "deposit", 0⟩,
           ⟨0, "company", .DEBIT, 201, "USD", -201, "deposit", 0⟩] := by
  decide

theorem C1_double_entry_witness :
    ∃ d c,
      ((Transfer true emptyDB sampleDeposit "k1").state.transactions.filter
        (fun t => t.groupId == "k1")) = [d, c] ∧
      d.ty = .DEBIT ∧ c.ty = .CREDIT ∧
      d.amount = sampleDeposit.amount ∧ c.amount = sampleDeposit.amount ∧
      0 < sampleDeposit.amount ∧
      d.accountId ≠ c.accountId ∧
      (∃ a ∈ (Transfer true emptyDB sampleDeposit "k1").state.accounts,
        a.id = d.accountId ∧
        a.userId = (normalizeRequest sampleDeposit).fromAccountID ∧
        a.currency = (normalizeRequest sampleDeposit).currency) ∧
      (∃ a ∈ (Transfer true emptyDB sampleDeposit "k1").state.accounts,
        a.id = c.accountId ∧
        a.userId = (normalizeRequest sampleDeposit).toAccountID ∧
        a.currency = (normalizeRequest sampleDeposit).currency) :=
  C1_double_entry true emptyDB sampleDeposit "k1" (by decide)
    (show (Transfer true emptyDB sampleDeposit "k1").result =
      .ok [⟨0, "company", .DEBIT, 201, "USD", -201, "deposit", 0⟩,
           ⟨1, "alice", .CREDIT, 201, "USD", 201, "deposit", 0⟩] by decide)

theorem C2_duplicate_key_witness :
    (Transfer true stateAfterDeposit samplePay "k1").result =
      .error .duplicateTransaction :=
  (C2_duplicate_key true stateAfterDeposit samplePay "k1" (by decide)).2.2
    (by decide) (by decide) (by decide) (by decide) (by decide)

theorem C3_insufficient_balance_witness :
    (Transfer true stateAfterDeposit sampleOverdraw "k2").result =
      .error .insufficientBalance ∧
    (Transfer true stateAfterDeposit sampleOverdraw "k2").state.transactions =
      stateAfterDeposit.transactions :=
  have h := C3_insufficient_balance true stateAfterDeposit sampleOverdraw "k2"
    (by decide) (by decide) (by decide) (by decide) (by decide) (by decide)
    (show findAccount stateAfterDeposit
      (normalizeRequest sampleOverdraw).fromAccountID
      (normalizeRequest sampleOverdraw).currency =
      some ⟨1, "alice", "USD", 201⟩ by decide)
    (by decide) (by decide)
  ⟨h.1, h.2.1⟩

theorem C4_lock_matches_source_witness :
    lockAccounts stateAfterDeposit (normalizeRequest sampleWithdraw) =
      .ok ⟨1, 201, 0, -201, [1, 0]⟩ :=
  (C4_lock_matches_source stateAfterDeposit sampleWithdraw
    (show findAccount stateAfterDeposit (strTrim sampleWithdraw.fromAccountID)
      (strUpper (strTrim sampleWithdraw.currency)) =
      some ⟨1, "alice", "USD", 201⟩ by decide)
    (show findAccount stateAfterDeposit (strTrim sampleWithdraw.toAccountID)
      (strUpper (strTrim sampleWithdraw.currency)) =
      some ⟨0, "company", "USD", -201⟩ by decide)
    (by decide)).2

theorem C5_amount_checks_witness :
    ((Transfer true emptyDB ⟨"company", "alice", 0, "USD", "x"⟩ "k9").result =
        .error .invalidAmount ∧
      (Transfer true emptyDB ⟨"company", "alice", 0, "USD", "x"⟩ "k9").state =
        emptyDB) ∧
    ((Transfer true emptyDB ⟨"company", "alice", -7, "USD", "x"⟩ "k9").result =
        .error .negativeAmount ∧
      (Transfer true emptyDB ⟨"company", "alice", -7, "USD", "x"⟩ "k9").state =
        emptyDB) :=
  ⟨(C5_amount_checks true emptyDB ⟨"company", "alice", 0, "USD", "x"⟩ "k9"
      (by decide) (by decide)).2.1 (by decide) (by decide),
   (C5_amount_checks true emptyDB ⟨"company", "alice", -7, "USD", "x"⟩ "k9"
      (by decide) (by decide)).2.2 (by decide) (by decide)⟩

theorem C6_field_bounds_witness :
    ((Transfer true emptyDB ⟨"a", "b", 1, "", "x"⟩ "k9").result =
        .error .invalidCurrency ∧
      (Transfer true emptyDB ⟨"a", "b", 1, "", "x"⟩ "k9").state = emptyDB) ∧
    ((Transfer true emptyDB ⟨"", "b", 1, "USD", "x"⟩ "k9").result =
        .error .invalidAccountID ∧
      (Transfer true emptyDB ⟨"", "b", 1, "USD", "x"⟩ "k9").state = emptyDB) ∧
    ((Transfer true emptyDB ⟨"a", "", 1, "USD", "x"⟩ "k9").result =
        .error .invalidAccountID ∧
      (Transfer true emptyDB ⟨"a", "", 1, "USD", "x"⟩ "k9").state = emptyDB) :=
  ⟨(C6_field_bounds true emptyDB ⟨"a", "b", 1, "", "x"⟩ "k9").1 (by decide),
   (C6_field_bounds true emptyDB ⟨"", "b", 1, "USD", "x"⟩ "k9").2.1
     (by decide) (by decide),
   (C6_field_bounds true emptyDB ⟨"a", "", 1, "USD", "x"⟩ "k9").2.2
     (by decide) (by decide) (by decide)⟩

theorem C7_readback_pair_witness :
    ∃ d c dv cv,
      ((Transfer false emptyDB sampleDeposit "k1").state.transactions.filter
        (fun t => t.groupId == "k1")) = [d, c] ∧
      d.ty = .DEBIT ∧ c.ty = .CREDIT ∧ d.createdAt = c.createdAt ∧
      rowToView (Transfer false emptyDB sampleDeposit "k1").state d = some dv ∧
      rowToView (Transfer false emptyDB sampleDeposit "k1").state c = some cv ∧
      [⟨1, "alice", .CREDIT, 201, "USD", 201, "deposit", 0⟩,
       ⟨0, "company", .DEBIT, 201, "USD", -201, "deposit", 0⟩] =
        (if false then [dv, cv] else [cv, dv]) := by
  have h := C7_readback_pair false emptyDB sampleDeposit "k1" (by decide)
    (show (Transfer false emptyDB sampleDeposit "k1").result =
      .ok [⟨1, "alice", .CREDIT, 201, "USD", 201, "deposit", 0⟩,
           ⟨0, "company", .DEBIT, 201, "USD", -201, "deposit", 0⟩] by decide)
  exact h

theorem C8_missing_account_witness :
    GetAccountBalance emptyDB "USD" " Company " =
      .ok ⟨"Company", "USD", 0⟩ ∧
    GetAccountBalance emptyDB "USD" "bob" = .error .accountNotFound :=
  ⟨(C8_missing_account emptyDB "USD" " Company " (by decide) (by decide)).1
     (by decide),
   (C8_missing_account emptyDB "USD" "bob" (by decide) (by decide)).2
     (by decide)⟩

end Wallet
